import Mathlib

/-!
Shallow embedding of the G-code extrusion post-processor
(`src/gcode_post_processor.py`) and verification of its specification.

Modelling conventions:
* Python floats are modelled as exact real numbers (`ℝ`); numeric literals
  in the source are read as their exact decimal values.
* A Python `ZeroDivisionError` (float division by zero raises in Python)
  is modelled by `Option.none`; every function that can hit the unguarded
  division `r / norm_base` (source line 125) is `Option`-valued and `none`
  propagates outward exactly as an uncaught exception would.
* The shapely geometry library is an external collaborator: a polygon is
  abstracted to its point-containment test (`Polygon2`), and the containment
  test of `shapely.ops.unary_union` of a list of polygons is an abstract
  parameter `U` threaded through the functions that use it
  (`compute_effective_multiplier` and the stream loop).
* Euclidean distances (`shapely` point distance, `math.sqrt`,
  `LineString.length`) are `Real.sqrt` of the sum of squared coordinate
  differences; `LineString.interpolate(frac, normalized=True)` on a
  two-point line is linear interpolation.
* G-code lines are `List Char`; the regular expressions
  `[XYZE]([-+]?[0-9]*\.?[0-9]+)` and `re.sub` are implemented literally
  over character lists (leftmost match, greedy number token).
-/

/-- A 2D polygon produced by the geometry loader, abstracted to its
point-containment test (shapely `Polygon.contains` applied to a point,
i.e. strict interior membership). -/
structure Polygon2 where
  contains : ℝ → ℝ → Bool

/-- The two modifier kinds of the source: `"2D"` carries the boundary
polygon and its 2D centroid (`polygon`, `centroid_2d`), `"3D"` carries the
3D centroid (`centroid_3d`). -/
inductive ModKind where
  | planar (polygon : Polygon2) (cx cy : ℝ)
  | volumetric (cx cy cz : ℝ)

/-- One loaded modifier (`mod_params` in the source): kind-specific
geometry plus `r_max`, `center_multiplier`, `edge_multiplier`,
`gradient_exponent`, `min_layer`. -/
structure Modifier where
  kind : ModKind
  r_max : ℝ
  center_multiplier : ℝ
  edge_multiplier : ℝ
  gradient_exponent : ℝ
  min_layer : ℝ

/-- Source lines 125-127: `normalized = min(r / norm_base, 1.0) ** g` and
`mod_multiplier = center - (center - edge) * normalized`, where
`norm_base = r_max` in both branches.  Python raises `ZeroDivisionError`
when `norm_base == 0`, modelled by `none`. -/
noncomputable def gradientValue (m : Modifier) (r : ℝ) : Option ℝ :=
  if m.r_max = 0 then none
  else
    some (m.center_multiplier -
      (m.center_multiplier - m.edge_multiplier) * (min (r / m.r_max) 1) ^ m.gradient_exponent)

/-- Source lines 106-127, `compute_multiplier_for_modifier(x, y, z, mod)`. -/
noncomputable def compute_multiplier_for_modifier (x y z : ℝ) (m : Modifier) : Option ℝ :=
  if z < m.min_layer then some 1
  else
    match m.kind with
    | .planar p cx cy =>
        if p.contains x y then
          gradientValue m (Real.sqrt ((x - cx) ^ 2 + (y - cy) ^ 2))
        else some 1
    | .volumetric cx cy cz =>
        if Real.sqrt ((x - cx) ^ 2 + (y - cy) ^ 2 + (z - cz) ^ 2) > m.r_max then some 1
        else gradientValue m (Real.sqrt ((x - cx) ^ 2 + (y - cy) ^ 2 + (z - cz) ^ 2))

/-- Source lines 130-135, `compute_multiplier_multiple(x, y, z)`:
`overall = 1.0; for mod in modifiers: overall *= m`. -/
noncomputable def compute_multiplier_multiple (mods : List Modifier) (x y z : ℝ) : Option ℝ :=
  mods.foldlM (fun overall m =>
    (compute_multiplier_for_modifier x y z m).map (fun v => overall * v)) 1

/-- `line.interpolate(frac, normalized=True)` for the two-point
`LineString([start, end])` of source line 139/143: linear interpolation. -/
noncomputable def interpPoint (s e : ℝ × ℝ) (frac : ℝ) : ℝ × ℝ :=
  (s.1 + frac * (e.1 - s.1), s.2 + frac * (e.2 - s.2))

/-- Source lines 138-145, `compute_average_multiplier(start, end, z,
num_samples)`: midpoint-rule average of the point multiplier at fractions
`(i + 0.5) / num_samples`.  `num_samples = 0` would make the final
`total / num_samples` a Python `ZeroDivisionError`, modelled by `none`. -/
noncomputable def compute_average_multiplier
    (mods : List Modifier) (s e : ℝ × ℝ) (z : ℝ) (n : ℕ) : Option ℝ :=
  if n = 0 then none
  else
    ((List.range n).foldlM (fun (total : ℝ) (i : ℕ) =>
      (compute_multiplier_multiple mods
          (interpPoint s e (((i : ℝ) + 1 / 2) / (n : ℝ))).1
          (interpPoint s e (((i : ℝ) + 1 / 2) / (n : ℝ))).2 z).map
        (fun m => total + m)) 0).map (fun total => total / (n : ℝ))

/-- Source line 150: `[mod["polygon"] for mod in modifiers if
mod.get("modifier_type","2D")=="2D" and z >= mod["min_layer"]]`. -/
noncomputable def activePolys (mods : List Modifier) (z : ℝ) : List Polygon2 :=
  mods.filterMap (fun m =>
    match m.kind with
    | .planar p _ _ => if z ≥ m.min_layer then some p else none
    | .volumetric _ _ _ => none)

/-- Source lines 148-160, `compute_effective_multiplier(start, end, z,
num_samples)`.  `U` is the containment test of
`unary_union(applicable_polys)`, an external geometry-library capability. -/
noncomputable def compute_effective_multiplier
    (U : List Polygon2 → ℝ → ℝ → Bool) (mods : List Modifier)
    (s e : ℝ × ℝ) (z : ℝ) (n : ℕ) : Option ℝ :=
  let polys := activePolys mods z
  let cls := if polys.isEmpty then (true, true) else (U polys s.1 s.2, U polys e.1 e.2)
  if cls.1 = cls.2 then compute_average_multiplier mods s e z n
  else some 1

/-! ### Lexical layer: the regular expressions of source lines 41-44 and 208/215 -/

/-- Greedy match of `[-+]?[0-9]*\.?[0-9]+` at the head of `s` (the number
part of the patterns `X(...)`, `Y(...)`, `Z(...)`, `E(...)`), without the
optional sign; returns the matched characters.  Mirrors regex
backtracking: the trailing `[0-9]+` forces at least one digit, so
`"23."` matches as `"23"` and `".5"` matches as `".5"`. -/
def numTokCore (s : List Char) : Option (List Char) :=
  let d1 := s.takeWhile Char.isDigit
  match s.drop d1.length with
  | '.' :: r2 =>
      let d2 := r2.takeWhile Char.isDigit
      if d2 = [] then (if d1 = [] then none else some d1)
      else some (d1 ++ '.' :: d2)
  | _ => if d1 = [] then none else some d1

/-- Greedy match of `[-+]?[0-9]*\.?[0-9]+` at the head of `s`, sign
included in the returned token. -/
def numTok (s : List Char) : Option (List Char) :=
  match s with
  | c :: rest => if c = '-' ∨ c = '+' then (numTokCore rest).map (fun t => c :: t) else numTokCore s
  | [] => none

/-- `re.search` for the pattern `c([-+]?[0-9]*\.?[0-9]+)`: leftmost
occurrence of the letter `c` that is followed by a number; returns group 1
(the number token). -/
def searchTok (c : Char) : List Char → Option (List Char)
  | [] => none
  | a :: rest =>
      if a = c then
        match numTok rest with
        | some t => some t
        | none => searchTok c rest
      else searchTok c rest

/-- Decimal value of a digit string. -/
def digitsVal (l : List Char) : ℕ :=
  l.foldl (fun acc c => 10 * acc + (c.toNat - 48)) 0

/-- Value of an unsigned matched number token (`digits`, `digits.digits`,
or `.digits`), as Python `float` of the token, modelled exactly. -/
def parseDecNN (t : List Char) : ℚ :=
  let ip := t.takeWhile Char.isDigit
  match t.drop ip.length with
  | '.' :: fr => (digitsVal ip : ℚ) + (digitsVal fr : ℚ) / (10 : ℚ) ^ fr.length
  | _ => (digitsVal ip : ℚ)

/-- Python `float(match.group(1))` on a matched number token. -/
def parseDec (t : List Char) : ℚ :=
  match t with
  | '-' :: r => - parseDecNN r
  | '+' :: r => parseDecNN r
  | _ => parseDecNN t

/-- `re.sub(r'E[-+]?[0-9]*\.?[0-9]+', repl, line)` of source lines
208/215: replace every non-overlapping leftmost match by `repl` (the
replacement string `E` + formatted value). -/
def subE (repl : List Char) : List Char → List Char
  | [] => []
  | c :: rest =>
      if c = 'E' then
        match numTok rest with
        | some t => repl ++ subE repl (rest.drop t.length)
        | none => c :: subE repl rest
      else c :: subE repl rest
termination_by s => s.length
decreasing_by
  · simp only [List.length_drop, List.length_cons]
    omega
  · simp
  · simp

/-! ### Fixed-point formatting: Python `f"E{new_E:.5f}"` -/

/-- Decimal digit characters of a natural number. -/
def natChars (n : ℕ) : List Char :=
  if _h : n < 10 then [Nat.digitChar n]
  else natChars (n / 10) ++ [Nat.digitChar (n % 10)]
termination_by n
decreasing_by
  exact Nat.div_lt_self (by omega) (by omega)

/-- Zero-pad a number below 100000 to five digit characters. -/
def pad5 (k : ℕ) : List Char :=
  List.replicate (5 - (natChars k).length) '0' ++ natChars k

/-- Round-half-even to an integer (the rounding of Python fixed-point
`float` formatting, idealized to exact reals). -/
noncomputable def roundHalfEven (x : ℝ) : ℤ :=
  if x - ⌊x⌋ < 1 / 2 then ⌊x⌋
  else if (1 / 2 : ℝ) < x - ⌊x⌋ then ⌊x⌋ + 1
  else if Even ⌊x⌋ then ⌊x⌋ else ⌊x⌋ + 1

/-- Python `f"{v:.5f}"`, idealized to exact reals: sign, integer part,
point, and exactly five fractional digits. -/
noncomputable def format5 (v : ℝ) : List Char :=
  (if v < 0 then ['-'] else []) ++
    (natChars ((roundHalfEven (|v| * 100000)).toNat / 100000) ++
      '.' :: pad5 ((roundHalfEven (|v| * 100000)).toNat % 100000))

/-- Computable rational mirror of `roundHalfEven`, used to evaluate
concrete formatting facts. -/
def roundHalfEvenQ (x : ℚ) : ℤ :=
  if x - ⌊x⌋ < 1 / 2 then ⌊x⌋
  else if (1 / 2 : ℚ) < x - ⌊x⌋ then ⌊x⌋ + 1
  else if Even ⌊x⌋ then ⌊x⌋ else ⌊x⌋ + 1

/-- Computable rational mirror of `format5`. -/
def format5Q (v : ℚ) : List Char :=
  (if v < 0 then ['-'] else []) ++
    (natChars ((roundHalfEvenQ (|v| * 100000)).toNat / 100000) ++
      '.' :: pad5 ((roundHalfEvenQ (|v| * 100000)).toNat % 100000))

/-! ### The stream rewrite loop, source lines 162-221 -/

/-- `StreamState` of the loop: `last_E`, `new_E`, `last_x`, `last_y`,
`last_z`, initialised at source lines 164-166. -/
structure SState where
  last_E : ℝ
  new_E : ℝ
  last_x : Option ℝ
  last_y : Option ℝ
  last_z : ℝ

/-- Source lines 164-166: `new_E = 0.0; last_E = 0.0;
last_x, last_y, last_z = None, None, 0`. -/
def initState : SState := ⟨0, 0, none, none, 0⟩

/-- `"G92"`. -/
def g92Tag : List Char := ['G', '9', '2']

/-- `"G1"`. -/
def g1Tag : List Char := ['G', '1']

/-- Source lines 179-181: update `last_z` when the line has a Z field. -/
def zUpdate (st : SState) (line : List Char) : SState :=
  match searchTok 'Z' line with
  | some g => { st with last_z := ((parseDec g : ℚ) : ℝ) }
  | none => st

/-- Source lines 190-201: resolve the move's start point, end point and
positional state update from the optional X and Y fields.  Only when BOTH
`x_match` and `y_match` succeed are the explicit coordinates used and
`last_x, last_y` updated; otherwise the move is pinned to the last known
position, or the origin if none was ever established. -/
def moveGeometry (st : SState) (xv yv : Option ℚ) : (ℝ × ℝ) × (ℝ × ℝ) × SState :=
  match xv, yv with
  | some xq, some yq =>
      match st.last_x, st.last_y with
      | some lx, some ly =>
          ((lx, ly), ((xq : ℝ), (yq : ℝ)),
            { st with last_x := some (xq : ℝ), last_y := some (yq : ℝ) })
      | _, _ =>
          (((xq : ℝ), (yq : ℝ)), ((xq : ℝ), (yq : ℝ)),
            { st with last_x := some (xq : ℝ), last_y := some (yq : ℝ) })
  | _, _ =>
      match st.last_x, st.last_y with
      | some lx, some ly => ((lx, ly), (lx, ly), st)
      | _, _ => ((0, 0), (0, 0), st)

/-- Source lines 203-212: segment length test against `1e-6`; point
multiplier at the end point for a degenerate move, segment multiplier with
`num_samples=5` otherwise. -/
noncomputable def moveMultiplier (U : List Polygon2 → ℝ → ℝ → Bool) (mods : List Modifier)
    (s e : ℝ × ℝ) (z : ℝ) : Option ℝ :=
  if Real.sqrt ((e.1 - s.1) ^ 2 + (e.2 - s.2) ^ 2) < 1 / 1000000 then
    compute_multiplier_multiple mods e.1 e.2 z
  else compute_effective_multiplier U mods s e z 5

/-- The geometry resolution of a move line: source line 189 sets
`last_E = current_E` first, then lines 190-201 resolve start/end from the
X and Y matches of the line. -/
noncomputable def moveGeoOf (st1 : SState) (line ge : List Char) : (ℝ × ℝ) × (ℝ × ℝ) × SState :=
  moveGeometry { st1 with last_E := ((parseDec ge : ℚ) : ℝ) }
    ((searchTok 'X' line).map parseDec) ((searchTok 'Y' line).map parseDec)

/-- Source lines 186-217, the body run for a `G1`+`E` line whose E field
parsed as `ge`: compute `delta_E = current_E - last_E`, resolve geometry,
scale, accumulate (`new_E += delta_E * m`) and rewrite the E tokens of the
line to the accumulated value. -/
noncomputable def doMove (U : List Polygon2 → ℝ → ℝ → Bool) (mods : List Modifier)
    (st1 : SState) (line : List Char) (ge : List Char) : Option (List Char × SState) :=
  match moveMultiplier U mods (moveGeoOf st1 line ge).1 (moveGeoOf st1 line ge).2.1
      st1.last_z with
  | some m =>
      some (subE ('E' :: format5 (st1.new_E + (((parseDec ge : ℚ) : ℝ) - st1.last_E) * m)) line,
        { (moveGeoOf st1 line ge).2.2 with
            new_E := st1.new_E + (((parseDec ge : ℚ) : ℝ) - st1.last_E) * m })
  | none => none

/-- Source lines 169-221: processing of one input line, returning the
single output line and the next state (`none` models an uncaught
`ZeroDivisionError` aborting the run). -/
noncomputable def processLine (U : List Polygon2 → ℝ → ℝ → Bool) (mods : List Modifier)
    (st : SState) (line : List Char) : Option (List Char × SState) :=
  if g92Tag.isPrefixOf line && line.contains 'E' then
    match searchTok 'E' line with
    | some g =>
        some (line, { st with last_E := ((parseDec g : ℚ) : ℝ), new_E := ((parseDec g : ℚ) : ℝ) })
    | none => some (line, st)
  else
    let st1 := zUpdate st line
    if g1Tag.isPrefixOf line && line.contains 'E' then
      match searchTok 'E' line with
      | some ge => doMove U mods st1 line ge
      | none => some (line, st1)
    else some (line, st1)

/-- The whole rewrite pass: fold `processLine` over the input lines,
collecting the output lines in order. -/
noncomputable def processLines (U : List Polygon2 → ℝ → ℝ → Bool) (mods : List Modifier) :
    SState → List (List Char) → Option (List (List Char) × SState)
  | st, [] => some ([], st)
  | st, l :: ls =>
      (processLine U mods st l).bind (fun p =>
        (processLines U mods p.2 ls).map (fun q => (p.1 :: q.1, q.2)))

/-! ### Helper lemmas -/

set_option maxRecDepth 40000

lemma roundHalfEven_ratCast (x : ℚ) : roundHalfEven (x : ℝ) = roundHalfEvenQ x := by
  unfold roundHalfEven roundHalfEvenQ
  rw [Rat.floor_cast]
  have key : (x : ℝ) - ((⌊x⌋ : ℤ) : ℝ) = ((x - ⌊x⌋ : ℚ) : ℝ) := by push_cast; ring
  have h1 : ((x : ℝ) - ((⌊x⌋ : ℤ) : ℝ) < 1 / 2) ↔ (x - ⌊x⌋ < 1 / 2) := by
    rw [key, show (1 / 2 : ℝ) = ((1 / 2 : ℚ) : ℝ) by norm_num, Rat.cast_lt]
  have h2 : ((1 / 2 : ℝ) < (x : ℝ) - ((⌊x⌋ : ℤ) : ℝ)) ↔ ((1 / 2 : ℚ) < x - ⌊x⌋) := by
    rw [key, show (1 / 2 : ℝ) = ((1 / 2 : ℚ) : ℝ) by norm_num, Rat.cast_lt]
  simp only [h1, h2]

lemma format5_ratCast (q : ℚ) : format5 ((q : ℚ) : ℝ) = format5Q q := by
  unfold format5 format5Q
  have h1 : ((q : ℝ) < 0) ↔ (q < 0) := by exact_mod_cast Iff.rfl
  have h2 : |(q : ℝ)| * 100000 = ((|q| * 100000 : ℚ) : ℝ) := by push_cast; ring
  rw [h2, roundHalfEven_ratCast]
  simp only [h1]

lemma roundHalfEvenQ_intCast (k : ℤ) : roundHalfEvenQ (k : ℚ) = k := by
  simp [roundHalfEvenQ, Int.floor_intCast]

lemma compute_multiplier_multiple_nil (x y z : ℝ) :
    compute_multiplier_multiple [] x y z = some 1 := rfl

lemma bind_some_eq (x : ℝ) (k : ℝ → Option ℝ) : (some x >>= k) = k x := rfl

lemma foldlM_add_some (g : ℕ → Option ℝ) (f : ℕ → ℝ) :
    ∀ (l : List ℕ), (∀ i ∈ l, g i = some (f i)) →
      ∀ a : ℝ, l.foldlM (fun t i => (g i).map (fun m => t + m)) a = some (a + (l.map f).sum)
  | [], _, a => by simp
  | i :: l, h, a => by
    have hi : g i = some (f i) := h i (by simp)
    have hrest : ∀ j ∈ l, g j = some (f j) := fun j hj => h j (by simp [hj])
    simp only [List.foldlM_cons, hi, Option.map_some']
    rw [bind_some_eq]
    rw [foldlM_add_some g f l hrest (a + f i)]
    simp [List.sum_cons]
    ring

lemma compute_average_eq_mean (mods : List Modifier) (s e : ℝ × ℝ) (z : ℝ) (n : ℕ)
    (f : ℕ → ℝ) (hn : n ≠ 0)
    (h : ∀ i ∈ List.range n,
      compute_multiplier_multiple mods
        (interpPoint s e (((i : ℝ) + 1 / 2) / (n : ℝ))).1
        (interpPoint s e (((i : ℝ) + 1 / 2) / (n : ℝ))).2 z = some (f i)) :
    compute_average_multiplier mods s e z n = some ((((List.range n).map f).sum) / (n : ℝ)) := by
  unfold compute_average_multiplier
  rw [if_neg hn]
  rw [foldlM_add_some _ f (List.range n) h 0]
  simp

lemma compute_average_nil (s e : ℝ × ℝ) (z : ℝ) (n : ℕ) (hn : n ≠ 0) :
    compute_average_multiplier [] s e z n = some 1 := by
  rw [compute_average_eq_mean [] s e z n (fun _ => 1) hn
    (fun i _ => compute_multiplier_multiple_nil _ _ _)]
  congr 1
  rw [List.map_const']
  rw [List.sum_replicate]
  simp only [List.length_range, nsmul_eq_mul, mul_one]
  rw [div_self (by exact_mod_cast hn : (n : ℝ) ≠ 0)]

lemma activePolys_nil (z : ℝ) : activePolys [] z = [] := rfl

lemma compute_effective_same (U : List Polygon2 → ℝ → ℝ → Bool) (mods : List Modifier)
    (s e : ℝ × ℝ) (z : ℝ) (n : ℕ)
    (h : (activePolys mods z).isEmpty = true ∨
      U (activePolys mods z) s.1 s.2 = U (activePolys mods z) e.1 e.2) :
    compute_effective_multiplier U mods s e z n = compute_average_multiplier mods s e z n := by
  unfold compute_effective_multiplier
  rcases h with h | h
  · simp [h]
  · by_cases he : (activePolys mods z).isEmpty
    · simp [he]
    · simp [he, h]

lemma compute_effective_nil (U : List Polygon2 → ℝ → ℝ → Bool) (s e : ℝ × ℝ) (z : ℝ)
    (n : ℕ) (hn : n ≠ 0) :
    compute_effective_multiplier U [] s e z n = some 1 := by
  rw [compute_effective_same U [] s e z n (Or.inl (by rfl))]
  exact compute_average_nil s e z n hn

lemma moveMultiplier_nil (U : List Polygon2 → ℝ → ℝ → Bool) (s e : ℝ × ℝ) (z : ℝ) :
    moveMultiplier U [] s e z = some 1 := by
  unfold moveMultiplier
  by_cases h : Real.sqrt ((e.1 - s.1) ^ 2 + (e.2 - s.2) ^ 2) < 1 / 1000000
  · rw [if_pos h]; exact compute_multiplier_multiple_nil _ _ _
  · rw [if_neg h]; exact compute_effective_nil U s e z 5 (by norm_num)

lemma moveGeometry_keeps (st : SState) (xv yv : Option ℚ) :
    (moveGeometry st xv yv).2.2.last_E = st.last_E ∧
    (moveGeometry st xv yv).2.2.new_E = st.new_E ∧
    (moveGeometry st xv yv).2.2.last_z = st.last_z := by
  rcases xv with _ | xq <;> rcases yv with _ | yq <;>
    rcases hx : st.last_x with _ | lx <;> rcases hy : st.last_y with _ | ly <;>
    simp [moveGeometry, hx, hy]

lemma zUpdate_keeps (st : SState) (l : List Char) :
    (zUpdate st l).last_E = st.last_E ∧ (zUpdate st l).new_E = st.new_E ∧
    (zUpdate st l).last_x = st.last_x ∧ (zUpdate st l).last_y = st.last_y := by
  unfold zUpdate
  rcases searchTok 'Z' l with _ | g <;> simp

lemma processLine_g92 (U : List Polygon2 → ℝ → ℝ → Bool) (mods : List Modifier)
    (st : SState) (l g : List Char)
    (h92 : (g92Tag.isPrefixOf l && l.contains 'E') = true)
    (hE : searchTok 'E' l = some g) :
    processLine U mods st l =
      some (l, { st with last_E := ((parseDec g : ℚ) : ℝ), new_E := ((parseDec g : ℚ) : ℝ) }) := by
  unfold processLine
  rw [h92]
  simp [hE]

lemma processLine_move (U : List Polygon2 → ℝ → ℝ → Bool) (mods : List Modifier)
    (st : SState) (l ge : List Char)
    (h92 : (g92Tag.isPrefixOf l && l.contains 'E') = false)
    (h1 : (g1Tag.isPrefixOf l && l.contains 'E') = true)
    (hE : searchTok 'E' l = some ge) :
    processLine U mods st l = doMove U mods (zUpdate st l) l ge := by
  unfold processLine
  rw [h92, h1]
  simp [hE]

lemma processLine_other (U : List Polygon2 → ℝ → ℝ → Bool) (mods : List Modifier)
    (st : SState) (l : List Char)
    (h92 : (g92Tag.isPrefixOf l && l.contains 'E') = false)
    (h1 : (g1Tag.isPrefixOf l && l.contains 'E') = false) :
    processLine U mods st l = some (l, zUpdate st l) := by
  unfold processLine
  rw [h92, h1]
  simp

lemma processLine_noE (U : List Polygon2 → ℝ → ℝ → Bool) (mods : List Modifier)
    (st : SState) (l : List Char)
    (h92 : (g92Tag.isPrefixOf l && l.contains 'E') = false)
    (h1 : (g1Tag.isPrefixOf l && l.contains 'E') = true)
    (hE : searchTok 'E' l = none) :
    processLine U mods st l = some (l, zUpdate st l) := by
  unfold processLine
  rw [h92, h1]
  simp [hE]

lemma doMove_some (U : List Polygon2 → ℝ → ℝ → Bool) (mods : List Modifier)
    (st1 : SState) (l ge : List Char) (m : ℝ)
    (hm : moveMultiplier U mods (moveGeoOf st1 l ge).1 (moveGeoOf st1 l ge).2.1
      st1.last_z = some m) :
    doMove U mods st1 l ge =
      some (subE ('E' :: format5 (st1.new_E + (((parseDec ge : ℚ) : ℝ) - st1.last_E) * m)) l,
        { (moveGeoOf st1 l ge).2.2 with
            new_E := st1.new_E + (((parseDec ge : ℚ) : ℝ) - st1.last_E) * m }) := by
  unfold doMove
  rw [hm]

/-! ### Concrete fixtures for witnesses and counterexamples -/

/-- A trivial union-containment backend: everything is inside. -/
def trivialU : List Polygon2 → ℝ → ℝ → Bool := fun _ _ _ => true

/-- A union-containment backend that contains exactly the points with
negative x coordinate. -/
noncomputable def leftU : List Polygon2 → ℝ → ℝ → Bool := fun _ x _ =>
  if x < 0 then true else false

/-- A polygon containing every point. -/
def allPoly : Polygon2 := ⟨fun _ _ => true⟩

/-- A planar modifier whose gradient is constantly `1.5`
(`center_multiplier = edge_multiplier = 1.5`). -/
noncomputable def mod15 : Modifier :=
  { kind := .planar allPoly 0 0, r_max := 1, center_multiplier := 3 / 2,
    edge_multiplier := 3 / 2, gradient_exponent := 1, min_layer := 0 }

/-- A degenerate volumetric modifier from a single-vertex mesh: centroid
`(0,0,0)` and `r_max = 0`. -/
noncomputable def degMod : Modifier :=
  { kind := .volumetric 0 0 0, r_max := 0, center_multiplier := 2,
    edge_multiplier := 1, gradient_exponent := 1, min_layer := 0 }

def lineG92 : List Char := "G92 E12.0\n".toList
def lineMove : List Char := "G1 X3 Y4 E14.0\n".toList
def lineMoveOut : List Char := "G1 X3 Y4 E15.00000\n".toList
def lineB : List Char := "G1 X1 Y0 E2.0 ; E9.9\n".toList
def lineBOut : List Char := "G1 X1 Y0 E2.00000 ; E2.00000\n".toList
def lineBClaim : List Char := "G1 X1 Y0 E2.00000 ; E9.9\n".toList
def lineC : List Char := "G1 X1 Y1 E2.5\n".toList
def lineCOut : List Char := "G1 X1 Y1 E2.50000\n".toList
def lineD : List Char := "G10 E5\n".toList
def lineDOut : List Char := "G10 E5.00000\n".toList
def lineE : List Char := "G1 X0 Y0 ; E7.5\n".toList
def lineEOut : List Char := "G1 X0 Y0 ; E7.50000\n".toList
def lineF : List Char := "G1 X5 E2\n".toList
def lineM : List Char := "M104 S200\n".toList

lemma parse_12 : parseDec ['1', '2', '.', '0'] = 12 := by
  have h1 : List.takeWhile Char.isDigit ['1', '2', '.', '0'] = ['1', '2'] := by decide
  simp [parseDec, parseDecNN, h1, digitsVal]

lemma parse_14 : parseDec ['1', '4', '.', '0'] = 14 := by
  have h1 : List.takeWhile Char.isDigit ['1', '4', '.', '0'] = ['1', '4'] := by decide
  simp [parseDec, parseDecNN, h1, digitsVal]

lemma parse_3 : parseDec ['3'] = 3 := by
  have h1 : List.takeWhile Char.isDigit ['3'] = ['3'] := by decide
  simp [parseDec, parseDecNN, h1, digitsVal]

lemma parse_4 : parseDec ['4'] = 4 := by
  have h1 : List.takeWhile Char.isDigit ['4'] = ['4'] := by decide
  simp [parseDec, parseDecNN, h1, digitsVal]

lemma parse_5 : parseDec ['5'] = 5 := by
  have h1 : List.takeWhile Char.isDigit ['5'] = ['5'] := by decide
  simp [parseDec, parseDecNN, h1, digitsVal]

lemma parse_2 : parseDec ['2'] = 2 := by
  have h1 : List.takeWhile Char.isDigit ['2'] = ['2'] := by decide
  simp [parseDec, parseDecNN, h1, digitsVal]

lemma parse_1 : parseDec ['1'] = 1 := by
  have h1 : List.takeWhile Char.isDigit ['1'] = ['1'] := by decide
  simp [parseDec, parseDecNN, h1, digitsVal]

lemma parse_0 : parseDec ['0'] = 0 := by
  have h1 : List.takeWhile Char.isDigit ['0'] = ['0'] := by decide
  simp [parseDec, parseDecNN, h1, digitsVal]

lemma parse_2p0 : parseDec ['2', '.', '0'] = 2 := by
  have h1 : List.takeWhile Char.isDigit ['2', '.', '0'] = ['2'] := by decide
  simp [parseDec, parseDecNN, h1, digitsVal]

lemma parse_2p5 : parseDec ['2', '.', '5'] = 5 / 2 := by
  have h1 : List.takeWhile Char.isDigit ['2', '.', '5'] = ['2'] := by decide
  simp [parseDec, parseDecNN, h1, digitsVal]
  norm_num

lemma parse_7p5 : parseDec ['7', '.', '5'] = 15 / 2 := by
  have h1 : List.takeWhile Char.isDigit ['7', '.', '5'] = ['7'] := by decide
  simp [parseDec, parseDecNN, h1, digitsVal]
  norm_num

lemma format5Q_15 : format5Q 15 = "15.00000".toList := by
  have h0 : (|(15 : ℚ)| * 100000) = ((1500000 : ℤ) : ℚ) := by
    rw [abs_of_nonneg (by norm_num : (0 : ℚ) ≤ 15)]
    norm_num
  rw [format5Q, h0, roundHalfEvenQ_intCast]
  norm_num
  simp +decide [natChars, pad5]

lemma format5Q_2 : format5Q 2 = "2.00000".toList := by
  have h0 : (|(2 : ℚ)| * 100000) = ((200000 : ℤ) : ℚ) := by
    rw [abs_of_nonneg (by norm_num : (0 : ℚ) ≤ 2)]
    norm_num
  rw [format5Q, h0, roundHalfEvenQ_intCast]
  norm_num
  simp +decide [natChars, pad5]

lemma format5Q_2p5 : format5Q (5 / 2) = "2.50000".toList := by
  have h0 : (|(5 / 2 : ℚ)| * 100000) = ((250000 : ℤ) : ℚ) := by
    rw [abs_of_nonneg (by norm_num : (0 : ℚ) ≤ 5 / 2)]
    norm_num
  rw [format5Q, h0, roundHalfEvenQ_intCast]
  norm_num
  simp +decide [natChars, pad5]

lemma format5Q_5 : format5Q 5 = "5.00000".toList := by
  have h0 : (|(5 : ℚ)| * 100000) = ((500000 : ℤ) : ℚ) := by
    rw [abs_of_nonneg (by norm_num : (0 : ℚ) ≤ 5)]
    norm_num
  rw [format5Q, h0, roundHalfEvenQ_intCast]
  norm_num
  simp +decide [natChars, pad5]

lemma format5Q_7p5 : format5Q (15 / 2) = "7.50000".toList := by
  have h0 : (|(15 / 2 : ℚ)| * 100000) = ((750000 : ℤ) : ℚ) := by
    rw [abs_of_nonneg (by norm_num : (0 : ℚ) ≤ 15 / 2)]
    norm_num
  rw [format5Q, h0, roundHalfEvenQ_intCast]
  norm_num
  simp +decide [natChars, pad5]

lemma mod15_eval (x y z : ℝ) (hz : 0 ≤ z) :
    compute_multiplier_for_modifier x y z mod15 = some (3 / 2) := by
  unfold compute_multiplier_for_modifier mod15
  simp [not_lt.2 hz, allPoly, gradientValue]

lemma multiple_mod15 (x y z : ℝ) (hz : 0 ≤ z) :
    compute_multiplier_multiple [mod15] x y z = some (3 / 2) := by
  unfold compute_multiplier_multiple
  simp [List.foldlM_cons, mod15_eval x y z hz]

lemma sqrt_self_zero (p : ℝ × ℝ) : Real.sqrt ((p.1 - p.1) ^ 2 + (p.2 - p.2) ^ 2) = 0 := by
  rw [show (p.1 - p.1) ^ 2 + (p.2 - p.2) ^ 2 = 0 by ring, Real.sqrt_zero]

lemma moveMultiplier_degenerate (U : List Polygon2 → ℝ → ℝ → Bool) (mods : List Modifier)
    (p : ℝ × ℝ) (z : ℝ) :
    moveMultiplier U mods p p z = compute_multiplier_multiple mods p.1 p.2 z := by
  unfold moveMultiplier
  rw [if_pos (by rw [sqrt_self_zero]; norm_num)]

lemma doMove_nil (U : List Polygon2 → ℝ → ℝ → Bool) (st1 : SState) (l ge : List Char) :
    doMove U [] st1 l ge =
      some (subE ('E' :: format5 (st1.new_E + (((parseDec ge : ℚ) : ℝ) - st1.last_E) * 1)) l,
        { (moveGeoOf st1 l ge).2.2 with
            new_E := st1.new_E + (((parseDec ge : ℚ) : ℝ) - st1.last_E) * 1 }) :=
  doMove_some U [] st1 l ge 1 (moveMultiplier_nil U _ _ _)

lemma zUpdate_none (st : SState) (l : List Char) (h : searchTok 'Z' l = none) :
    zUpdate st l = st := by
  simp [zUpdate, h]

lemma processLines_single_fst (U : List Polygon2 → ℝ → ℝ → Bool) (mods : List Modifier)
    (st : SState) (l out : List Char)
    (h : ∃ st', processLine U mods st l = some (out, st')) :
    (processLines U mods st [l]).map Prod.fst = some [out] := by
  obtain ⟨st', h⟩ := h
  simp [processLines, h]

lemma stepB (U : List Polygon2 → ℝ → ℝ → Bool) :
    ∃ st', processLine U [] initState lineB = some (lineBOut, st') := by
  have h92 : (g92Tag.isPrefixOf lineB && lineB.contains 'E') = false := by decide
  have h1 : (g1Tag.isPrefixOf lineB && lineB.contains 'E') = true := by decide
  have hE : searchTok 'E' lineB = some ['2', '.', '0'] := by decide
  have hZ : searchTok 'Z' lineB = none := by decide
  rw [processLine_move U [] initState lineB _ h92 h1 hE, zUpdate_none _ _ hZ, doMove_nil]
  have hnE : initState.new_E + (((parseDec ['2', '.', '0'] : ℚ) : ℝ) - initState.last_E) * 1 =
      ((2 : ℚ) : ℝ) := by
    rw [parse_2p0]
    show (0 : ℝ) + (((2 : ℚ) : ℝ) - 0) * 1 = ((2 : ℚ) : ℝ)
    push_cast
    ring
  rw [hnE, format5_ratCast, format5Q_2]
  have hsub : subE ('E' :: "2.00000".toList) lineB = lineBOut := by
    simp +decide [subE, numTok, numTokCore, lineB, lineBOut]
  rw [hsub]
  exact ⟨_, rfl⟩

lemma stepC (U : List Polygon2 → ℝ → ℝ → Bool) :
    ∃ st', processLine U [] initState lineC = some (lineCOut, st') := by
  have h92 : (g92Tag.isPrefixOf lineC && lineC.contains 'E') = false := by decide
  have h1 : (g1Tag.isPrefixOf lineC && lineC.contains 'E') = true := by decide
  have hE : searchTok 'E' lineC = some ['2', '.', '5'] := by decide
  have hZ : searchTok 'Z' lineC = none := by decide
  rw [processLine_move U [] initState lineC _ h92 h1 hE, zUpdate_none _ _ hZ, doMove_nil]
  have hnE : initState.new_E + (((parseDec ['2', '.', '5'] : ℚ) : ℝ) - initState.last_E) * 1 =
      ((5 / 2 : ℚ) : ℝ) := by
    rw [parse_2p5]
    show (0 : ℝ) + (((5 / 2 : ℚ) : ℝ) - 0) * 1 = ((5 / 2 : ℚ) : ℝ)
    push_cast
    ring
  rw [hnE, format5_ratCast, format5Q_2p5]
  have hsub : subE ('E' :: "2.50000".toList) lineC = lineCOut := by
    simp +decide [subE, numTok, numTokCore, lineC, lineCOut]
  rw [hsub]
  exact ⟨_, rfl⟩

lemma stepD (U : List Polygon2 → ℝ → ℝ → Bool) :
    ∃ st', processLine U [] initState lineD = some (lineDOut, st') := by
  have h92 : (g92Tag.isPrefixOf lineD && lineD.contains 'E') = false := by decide
  have h1 : (g1Tag.isPrefixOf lineD && lineD.contains 'E') = true := by decide
  have hE : searchTok 'E' lineD = some ['5'] := by decide
  have hZ : searchTok 'Z' lineD = none := by decide
  rw [processLine_move U [] initState lineD _ h92 h1 hE, zUpdate_none _ _ hZ, doMove_nil]
  have hnE : initState.new_E + (((parseDec ['5'] : ℚ) : ℝ) - initState.last_E) * 1 =
      ((5 : ℚ) : ℝ) := by
    rw [parse_5]
    show (0 : ℝ) + (((5 : ℚ) : ℝ) - 0) * 1 = ((5 : ℚ) : ℝ)
    push_cast
    ring
  rw [hnE, format5_ratCast, format5Q_5]
  have hsub : subE ('E' :: "5.00000".toList) lineD = lineDOut := by
    simp +decide [subE, numTok, numTokCore, lineD, lineDOut]
  rw [hsub]
  exact ⟨_, rfl⟩

lemma stepE (U : List Polygon2 → ℝ → ℝ → Bool) :
    ∃ st', processLine U [] initState lineE = some (lineEOut, st') := by
  have h92 : (g92Tag.isPrefixOf lineE && lineE.contains 'E') = false := by decide
  have h1 : (g1Tag.isPrefixOf lineE && lineE.contains 'E') = true := by decide
  have hE : searchTok 'E' lineE = some ['7', '.', '5'] := by decide
  have hZ : searchTok 'Z' lineE = none := by decide
  rw [processLine_move U [] initState lineE _ h92 h1 hE, zUpdate_none _ _ hZ, doMove_nil]
  have hnE : initState.new_E + (((parseDec ['7', '.', '5'] : ℚ) : ℝ) - initState.last_E) * 1 =
      ((15 / 2 : ℚ) : ℝ) := by
    rw [parse_7p5]
    show (0 : ℝ) + (((15 / 2 : ℚ) : ℝ) - 0) * 1 = ((15 / 2 : ℚ) : ℝ)
    push_cast
    ring
  rw [hnE, format5_ratCast, format5Q_7p5]
  have hsub : subE ('E' :: "7.50000".toList) lineE = lineEOut := by
    simp +decide [subE, numTok, numTokCore, lineE, lineEOut]
  rw [hsub]
  exact ⟨_, rfl⟩

/-- The state used for the partial-coordinates counterexample: a previous
XY position `(1, 1)` is established. -/
def st0F : SState := ⟨0, 0, some 1, some 1, 0⟩

lemma stepF (U : List Polygon2 → ℝ → ℝ → Bool) :
    (processLine U [] st0F lineF).map (fun p => p.2.last_x) = some (some (1 : ℝ)) ∧
      (moveGeoOf st0F lineF ['2']).2.1 = ((1 : ℝ), (1 : ℝ)) := by
  have h92 : (g92Tag.isPrefixOf lineF && lineF.contains 'E') = false := by decide
  have h1 : (g1Tag.isPrefixOf lineF && lineF.contains 'E') = true := by decide
  have hE : searchTok 'E' lineF = some ['2'] := by decide
  have hZ : searchTok 'Z' lineF = none := by decide
  have hX : searchTok 'X' lineF = some ['5'] := by decide
  have hY : searchTok 'Y' lineF = none := by decide
  constructor
  · rw [processLine_move U [] st0F lineF _ h92 h1 hE, zUpdate_none _ _ hZ, doMove_nil]
    simp [moveGeoOf, hX, hY, moveGeometry, st0F]
  · simp [moveGeoOf, hX, hY, moveGeometry, st0F]

lemma runC1 (U : List Polygon2 → ℝ → ℝ → Bool) :
    (processLines U [mod15] initState [lineG92, lineMove]).map Prod.fst =
      some [lineG92, lineMoveOut] := by
  have c92 : (g92Tag.isPrefixOf lineG92 && lineG92.contains 'E') = true := by decide
  have e92 : searchTok 'E' lineG92 = some ['1', '2', '.', '0'] := by decide
  have s1 : processLine U [mod15] initState lineG92 =
      some (lineG92, (⟨12, 12, none, none, 0⟩ : SState)) := by
    rw [processLine_g92 U [mod15] initState lineG92 ['1', '2', '.', '0'] c92 e92, parse_12]
    norm_num [initState]
  have h92 : (g92Tag.isPrefixOf lineMove && lineMove.contains 'E') = false := by decide
  have h1 : (g1Tag.isPrefixOf lineMove && lineMove.contains 'E') = true := by decide
  have hE : searchTok 'E' lineMove = some ['1', '4', '.', '0'] := by decide
  have hZ : searchTok 'Z' lineMove = none := by decide
  have hX : searchTok 'X' lineMove = some ['3'] := by decide
  have hY : searchTok 'Y' lineMove = some ['4'] := by decide
  have s2 : ∃ st', processLine U [mod15] (⟨12, 12, none, none, 0⟩ : SState) lineMove =
      some (lineMoveOut, st') := by
    rw [processLine_move U [mod15] _ lineMove _ h92 h1 hE, zUpdate_none _ _ hZ]
    have hm : moveMultiplier U [mod15]
        (moveGeoOf (⟨12, 12, none, none, 0⟩ : SState) lineMove ['1', '4', '.', '0']).1
        (moveGeoOf (⟨12, 12, none, none, 0⟩ : SState) lineMove ['1', '4', '.', '0']).2.1
        ((⟨12, 12, none, none, 0⟩ : SState) : SState).last_z = some (3 / 2) := by
      have hgeo : (moveGeoOf (⟨12, 12, none, none, 0⟩ : SState) lineMove
          ['1', '4', '.', '0']).1 =
          (moveGeoOf (⟨12, 12, none, none, 0⟩ : SState) lineMove ['1', '4', '.', '0']).2.1 := by
        simp [moveGeoOf, hX, hY, moveGeometry]
      rw [hgeo, moveMultiplier_degenerate]
      exact multiple_mod15 _ _ _ (by norm_num)
    rw [doMove_some U [mod15] _ lineMove _ (3 / 2) hm]
    have hnE : ((⟨12, 12, none, none, 0⟩ : SState) : SState).new_E +
        (((parseDec ['1', '4', '.', '0'] : ℚ) : ℝ) -
          ((⟨12, 12, none, none, 0⟩ : SState) : SState).last_E) * (3 / 2) = ((15 : ℚ) : ℝ) := by
      rw [parse_14]
      show (12 : ℝ) + (((14 : ℚ) : ℝ) - 12) * (3 / 2) = ((15 : ℚ) : ℝ)
      push_cast
      norm_num
    rw [hnE, format5_ratCast, format5Q_15]
    have hsub : subE ('E' :: "15.00000".toList) lineMove = lineMoveOut := by
      simp +decide [subE, numTok, numTokCore, lineMove, lineMoveOut]
    rw [hsub]
    exact ⟨_, rfl⟩
  obtain ⟨st2, s2⟩ := s2
  simp [processLines, s1, s2]

lemma moveGeoOf_keeps (st1 : SState) (l ge : List Char) :
    (moveGeoOf st1 l ge).2.2.last_E = ((parseDec ge : ℚ) : ℝ) ∧
    (moveGeoOf st1 l ge).2.2.new_E = st1.new_E ∧
    (moveGeoOf st1 l ge).2.2.last_z = st1.last_z := by
  unfold moveGeoOf
  have h := moveGeometry_keeps { st1 with last_E := ((parseDec ge : ℚ) : ℝ) }
    ((searchTok 'X' l).map parseDec) ((searchTok 'Y' l).map parseDec)
  simpa using h

lemma bool_not_true {b : Bool} (h : ¬ b = true) : b = false := by
  revert h
  cases b <;> simp

lemma processLine_g92_noE (U : List Polygon2 → ℝ → ℝ → Bool) (mods : List Modifier)
    (st : SState) (l : List Char)
    (h92 : (g92Tag.isPrefixOf l && l.contains 'E') = true)
    (hE : searchTok 'E' l = none) :
    processLine U mods st l = some (l, st) := by
  unfold processLine
  rw [if_pos h92, hE]

lemma doMove_none (U : List Polygon2 → ℝ → ℝ → Bool) (mods : List Modifier)
    (st1 : SState) (l ge : List Char)
    (hm : moveMultiplier U mods (moveGeoOf st1 l ge).1 (moveGeoOf st1 l ge).2.1
      st1.last_z = none) :
    doMove U mods st1 l ge = none := by
  unfold doMove
  rw [hm]

lemma processLine_shape (U : List Polygon2 → ℝ → ℝ → Bool) (mods : List Modifier)
    (st : SState) (l out : List Char) (st' : SState)
    (h : processLine U mods st l = some (out, st')) :
    out = l ∨ ∃ v : ℝ, out = subE ('E' :: format5 v) l := by
  by_cases c92 : (g92Tag.isPrefixOf l && l.contains 'E') = true
  · cases hE : searchTok 'E' l with
    | none =>
      rw [processLine_g92_noE U mods st l c92 hE] at h
      exact Or.inl (by injection h with h1; injection h1 with h2 _; exact h2.symm)
    | some g =>
      rw [processLine_g92 U mods st l g c92 hE] at h
      exact Or.inl (by injection h with h1; injection h1 with h2 _; exact h2.symm)
  · have c92f := bool_not_true c92
    by_cases c1 : (g1Tag.isPrefixOf l && l.contains 'E') = true
    · cases hE : searchTok 'E' l with
      | none =>
        rw [processLine_noE U mods st l c92f c1 hE] at h
        exact Or.inl (by injection h with h1; injection h1 with h2 _; exact h2.symm)
      | some ge =>
        rw [processLine_move U mods st l ge c92f c1 hE] at h
        cases hm : moveMultiplier U mods (moveGeoOf (zUpdate st l) l ge).1
            (moveGeoOf (zUpdate st l) l ge).2.1 (zUpdate st l).last_z with
        | none =>
          rw [doMove_none U mods (zUpdate st l) l ge hm] at h
          exact absurd h (by simp)
        | some m =>
          rw [doMove_some U mods (zUpdate st l) l ge m hm] at h
          refine Or.inr ⟨(zUpdate st l).new_E +
            (((parseDec ge : ℚ) : ℝ) - (zUpdate st l).last_E) * m, ?_⟩
          injection h with h1
          injection h1 with h2 _
          exact h2.symm
    · have c1f := bool_not_true c1
      rw [processLine_other U mods st l c92f c1f] at h
      exact Or.inl (by injection h with h1; injection h1 with h2 _; exact h2.symm)

lemma processLine_nil_inv (U : List Polygon2 → ℝ → ℝ → Bool) (st : SState) (l : List Char)
    (hinv : st.new_E = st.last_E) :
    ∃ out st', processLine U [] st l = some (out, st') ∧ st'.new_E = st'.last_E ∧
      (out = l ∨ ∃ g, searchTok 'E' l = some g ∧
        out = subE ('E' :: format5 ((parseDec g : ℚ) : ℝ)) l) := by
  by_cases c92 : (g92Tag.isPrefixOf l && l.contains 'E') = true
  · cases hE : searchTok 'E' l with
    | none =>
      exact ⟨l, st, processLine_g92_noE U [] st l c92 hE, hinv, Or.inl rfl⟩
    | some g =>
      refine ⟨l, _, processLine_g92 U [] st l g c92 hE, rfl, Or.inl rfl⟩
  · have c92f := bool_not_true c92
    by_cases c1 : (g1Tag.isPrefixOf l && l.contains 'E') = true
    · cases hE : searchTok 'E' l with
      | none =>
        refine ⟨l, zUpdate st l, processLine_noE U [] st l c92f c1 hE, ?_, Or.inl rfl⟩
        rw [(zUpdate_keeps st l).1, (zUpdate_keeps st l).2.1, hinv]
      | some ge =>
        have hmove := processLine_move U [] st l ge c92f c1 hE
        rw [doMove_nil] at hmove
        have hcur : (zUpdate st l).new_E +
            (((parseDec ge : ℚ) : ℝ) - (zUpdate st l).last_E) * 1 =
            ((parseDec ge : ℚ) : ℝ) := by
          rw [(zUpdate_keeps st l).1, (zUpdate_keeps st l).2.1, hinv]
          ring
        rw [hcur] at hmove
        refine ⟨_, _, hmove, ?_, Or.inr ⟨ge, rfl, rfl⟩⟩
        show ((parseDec ge : ℚ) : ℝ) = _
        rw [(moveGeoOf_keeps (zUpdate st l) l ge).1]
    · have c1f := bool_not_true c1
      refine ⟨l, zUpdate st l, processLine_other U [] st l c92f c1f, ?_, Or.inl rfl⟩
      rw [(zUpdate_keeps st l).1, (zUpdate_keeps st l).2.1, hinv]

lemma processLines_nil_inv (U : List Polygon2 → ℝ → ℝ → Bool) :
    ∀ (lines : List (List Char)) (st : SState), st.new_E = st.last_E →
      ∃ outs stF, processLines U [] st lines = some (outs, stF) ∧
        List.Forall₂ (fun lin lout => lout = lin ∨ ∃ g, searchTok 'E' lin = some g ∧
          lout = subE ('E' :: format5 ((parseDec g : ℚ) : ℝ)) lin) lines outs
  | [], st, _ => ⟨[], st, rfl, List.Forall₂.nil⟩
  | l :: ls, st, h => by
    obtain ⟨out, st', hline, hinv', hshape⟩ := processLine_nil_inv U st l h
    obtain ⟨outs, stF, hrest, hfa⟩ := processLines_nil_inv U ls st' hinv'
    exact ⟨out :: outs, stF, by simp [processLines, hline, hrest],
      List.Forall₂.cons hshape hfa⟩

lemma foldlM_mul_some (F : Modifier → Option ℝ) (f : Modifier → ℝ) :
    ∀ (l : List Modifier), (∀ m ∈ l, F m = some (f m)) →
      ∀ a : ℝ, l.foldlM (fun overall m => (F m).map (fun v => overall * v)) a =
        some (a * (l.map f).prod)
  | [], _, a => by simp
  | m :: ms, h, a => by
    have hm : F m = some (f m) := h m (by simp)
    have hms : ∀ x ∈ ms, F x = some (f x) := fun x hx => h x (by simp [hx])
    simp only [List.foldlM_cons, hm, Option.map_some']
    rw [bind_some_eq, foldlM_mul_some F f ms hms (a * f m)]
    simp [List.prod_cons, mul_assoc]

lemma foldlM_skip_ones (F : Modifier → Option ℝ) :
    ∀ (pre : List Modifier), (∀ m ∈ pre, F m = some 1) →
      ∀ (rest : List Modifier) (a : ℝ),
        (pre ++ rest).foldlM (fun overall m => (F m).map (fun v => overall * v)) a =
          rest.foldlM (fun overall m => (F m).map (fun v => overall * v)) a
  | [], _, rest, a => by simp
  | p :: pre, h, rest, a => by
    have hp : F p = some 1 := h p (by simp)
    have hpre : ∀ m ∈ pre, F m = some 1 := fun m hm => h m (by simp [hm])
    simp only [List.cons_append, List.foldlM_cons, hp, Option.map_some', mul_one]
    rw [bind_some_eq, foldlM_skip_ones F pre hpre rest a]

lemma foldlM_ones (F : Modifier → Option ℝ) :
    ∀ (l : List Modifier), (∀ m ∈ l, F m = some 1) →
      ∀ a : ℝ, l.foldlM (fun overall m => (F m).map (fun v => overall * v)) a = some a
  | [], _, a => by simp
  | m :: ms, h, a => by
    have hm : F m = some 1 := h m (by simp)
    have hms : ∀ x ∈ ms, F x = some 1 := fun x hx => h x (by simp [hx])
    simp only [List.foldlM_cons, hm, Option.map_some', mul_one]
    rw [bind_some_eq, foldlM_ones F ms hms a]

lemma processLine_move_acc (U : List Polygon2 → ℝ → ℝ → Bool) (mods : List Modifier)
    (st : SState) (l ge : List Char) (m : ℝ)
    (h92 : (g92Tag.isPrefixOf l && l.contains 'E') = false)
    (h1 : (g1Tag.isPrefixOf l && l.contains 'E') = true)
    (hE : searchTok 'E' l = some ge)
    (hm : moveMultiplier U mods (moveGeoOf (zUpdate st l) l ge).1
      (moveGeoOf (zUpdate st l) l ge).2.1 (zUpdate st l).last_z = some m) :
    ∃ st', processLine U mods st l =
        some (subE ('E' :: format5
          (st.new_E + (((parseDec ge : ℚ) : ℝ) - st.last_E) * m)) l, st') ∧
      st'.new_E = st.new_E + (((parseDec ge : ℚ) : ℝ) - st.last_E) * m := by
  have hmove := processLine_move U mods st l ge h92 h1 hE
  rw [doMove_some U mods (zUpdate st l) l ge m hm] at hmove
  rw [(zUpdate_keeps st l).1, (zUpdate_keeps st l).2.1] at hmove
  exact ⟨_, hmove, rfl⟩

lemma obind_some {α β : Type} (x : α) (k : α → Option β) : (Option.some x).bind k = k x := rfl

lemma processLines_shape (U : List Polygon2 → ℝ → ℝ → Bool) (mods : List Modifier) :
    ∀ (lines : List (List Char)) (st : SState) (outs : List (List Char)) (stF : SState),
      processLines U mods st lines = some (outs, stF) →
      List.Forall₂ (fun lin lout => lout = lin ∨ ∃ v : ℝ, lout = subE ('E' :: format5 v) lin)
        lines outs
  | [], st, outs, stF, h => by
    rw [show processLines U mods st [] = some ([], st) from rfl] at h
    injection h with h1
    rw [show outs = ([] : List (List Char)) from (congrArg Prod.fst h1).symm]
    exact List.Forall₂.nil
  | l :: ls, st, outs, stF, h => by
    rw [show processLines U mods st (l :: ls) =
      (processLine U mods st l).bind (fun p =>
        (processLines U mods p.2 ls).map (fun q => (p.1 :: q.1, q.2))) from rfl] at h
    cases hline : processLine U mods st l with
    | none => rw [hline] at h; exact absurd h (by simp)
    | some p =>
      rw [hline, obind_some] at h
      cases hrest : processLines U mods p.2 ls with
      | none => rw [hrest] at h; exact absurd h (by simp)
      | some q =>
        rw [hrest] at h
        simp only [Option.map_some'] at h
        injection h with h1
        have houts : outs = p.1 :: q.1 := (congrArg Prod.fst h1).symm
        rw [houts]
        exact List.Forall₂.cons (processLine_shape U mods st l p.1 p.2 (by rw [hline]))
          (processLines_shape U mods ls p.2 q.1 q.2 (by rw [hrest]))

/-- The evaluation point of a modifier that never contains the query
point: its gradient never applies, so it always contributes `1.0`. -/
noncomputable def modOut : Modifier :=
  { kind := .planar ⟨fun _ _ => false⟩ 0 0, r_max := 1, center_multiplier := 2,
    edge_multiplier := 3, gradient_exponent := 1, min_layer := 0 }

lemma modOut_eval (x y z : ℝ) : compute_multiplier_for_modifier x y z modOut = some 1 := by
  unfold compute_multiplier_for_modifier modOut
  by_cases hz : z < (0 : ℝ)
  · simp [hz]
  · simp [hz]

/-! ### Claim theorems -/

/-- C1: every qualifying extrusion move updates the accumulator by
`accumulated_e += delta * multiplier` with `delta` the line's raw E value
minus the previous raw E value; a G92 reset line with an E field sets both
`last_raw_e` and `accumulated_e` to the reset value and is emitted
unchanged; and a reset to E=12.0 followed by a move with raw E=14.0 under
multiplier 1.5 rewrites E to 15.00000. -/
theorem C1_accumulator_and_reset :
    (∀ (U : List Polygon2 → ℝ → ℝ → Bool) (mods : List Modifier) (st : SState) (l g : List Char),
      (g92Tag.isPrefixOf l && l.contains 'E') = true → searchTok 'E' l = some g →
        processLine U mods st l = some (l,
          { st with last_E := ((parseDec g : ℚ) : ℝ), new_E := ((parseDec g : ℚ) : ℝ) })) ∧
    (∀ (U : List Polygon2 → ℝ → ℝ → Bool) (mods : List Modifier) (st : SState)
        (l ge : List Char) (m : ℝ),
      (g92Tag.isPrefixOf l && l.contains 'E') = false →
      (g1Tag.isPrefixOf l && l.contains 'E') = true → searchTok 'E' l = some ge →
      moveMultiplier U mods (moveGeoOf (zUpdate st l) l ge).1
        (moveGeoOf (zUpdate st l) l ge).2.1 (zUpdate st l).last_z = some m →
      ∃ st', processLine U mods st l = some (subE ('E' :: format5
          (st.new_E + (((parseDec ge : ℚ) : ℝ) - st.last_E) * m)) l, st') ∧
        st'.new_E = st.new_E + (((parseDec ge : ℚ) : ℝ) - st.last_E) * m) ∧
    (∀ U : List Polygon2 → ℝ → ℝ → Bool,
      (processLines U [mod15] initState [lineG92, lineMove]).map Prod.fst =
        some [lineG92, lineMoveOut]) :=
  ⟨fun U mods st l g h92 hE => processLine_g92 U mods st l g h92 hE,
   fun U mods st l ge m h92 h1 hE hm => processLine_move_acc U mods st l ge m h92 h1 hE hm,
   runC1⟩

/-- C1 witness: the G92 reset conjunct applied to the concrete line
`G92 E12.0`. -/
theorem C1_accumulator_and_reset_witness :
    processLine trivialU [] initState lineG92 = some (lineG92,
      { initState with
          last_E := ((parseDec ['1', '2', '.', '0'] : ℚ) : ℝ)
          new_E := ((parseDec ['1', '2', '.', '0'] : ℚ) : ℝ) }) :=
  C1_accumulator_and_reset.1 trivialU [] initState lineG92 ['1', '2', '.', '0']
    (by decide) (by decide)

/-- C2: a segment whose endpoints are classified differently against the
union of the planar modifiers active at its z (one strictly inside, the
other strictly outside, in either direction) gets multiplier exactly 1.0
for any sample count; with no active planar modifier both endpoints count
as inside and the averaging path is taken. -/
theorem C2_boundary_crossing :
    (∀ (U : List Polygon2 → ℝ → ℝ → Bool) (mods : List Modifier) (s e : ℝ × ℝ) (z : ℝ) (n : ℕ),
      (activePolys mods z).isEmpty = false →
      U (activePolys mods z) s.1 s.2 ≠ U (activePolys mods z) e.1 e.2 →
      compute_effective_multiplier U mods s e z n = some 1) ∧
    (∀ (U : List Polygon2 → ℝ → ℝ → Bool) (mods : List Modifier) (s e : ℝ × ℝ) (z : ℝ) (n : ℕ),
      (activePolys mods z).isEmpty = true →
      compute_effective_multiplier U mods s e z n = compute_average_multiplier mods s e z n) := by
  constructor
  · intro U mods s e z n hne hcls
    unfold compute_effective_multiplier
    simp only [hne, Bool.false_eq_true, if_false]
    rw [if_neg hcls]
  · intro U mods s e z n hempty
    exact compute_effective_same U mods s e z n (Or.inl hempty)

/-- C2 witness: a concrete crossing segment (start inside, end outside the
union backend) gets multiplier exactly 1. -/
theorem C2_boundary_crossing_witness :
    compute_effective_multiplier leftU [mod15] ((-1 : ℝ), 0) ((1 : ℝ), 0) 0 5 = some 1 :=
  C2_boundary_crossing.1 leftU [mod15] ((-1 : ℝ), 0) ((1 : ℝ), 0) 0 5
    (by
      have hap : activePolys [mod15] 0 = [allPoly] := by
        simp [activePolys, mod15]
      rw [hap]
      rfl)
    (by norm_num [leftU])

/-- C3: single-modifier evaluation returns 1.0 below `min_layer`, outside
a planar boundary, or beyond a volumetric `max_radius`; otherwise it
returns `center - (center - edge) * min(r / max_radius, 1) ^ exponent`
with `r` the planar or 3D distance to the centroid. -/
theorem C3_single_modifier_eval :
    (∀ (x y z : ℝ) (m : Modifier), z < m.min_layer →
      compute_multiplier_for_modifier x y z m = some 1) ∧
    (∀ (x y z : ℝ) (m : Modifier) (p : Polygon2) (cx cy : ℝ), m.kind = .planar p cx cy →
      p.contains x y = false → compute_multiplier_for_modifier x y z m = some 1) ∧
    (∀ (x y z : ℝ) (m : Modifier) (cx cy cz : ℝ), m.kind = .volumetric cx cy cz →
      Real.sqrt ((x - cx) ^ 2 + (y - cy) ^ 2 + (z - cz) ^ 2) > m.r_max →
      compute_multiplier_for_modifier x y z m = some 1) ∧
    (∀ (x y z : ℝ) (m : Modifier) (p : Polygon2) (cx cy : ℝ), m.kind = .planar p cx cy →
      ¬ z < m.min_layer → p.contains x y = true → m.r_max ≠ 0 →
      compute_multiplier_for_modifier x y z m = some (m.center_multiplier -
        (m.center_multiplier - m.edge_multiplier) *
          (min (Real.sqrt ((x - cx) ^ 2 + (y - cy) ^ 2) / m.r_max) 1) ^ m.gradient_exponent)) ∧
    (∀ (x y z : ℝ) (m : Modifier) (cx cy cz : ℝ), m.kind = .volumetric cx cy cz →
      ¬ z < m.min_layer →
      ¬ Real.sqrt ((x - cx) ^ 2 + (y - cy) ^ 2 + (z - cz) ^ 2) > m.r_max → m.r_max ≠ 0 →
      compute_multiplier_for_modifier x y z m = some (m.center_multiplier -
        (m.center_multiplier - m.edge_multiplier) *
          (min (Real.sqrt ((x - cx) ^ 2 + (y - cy) ^ 2 + (z - cz) ^ 2) / m.r_max) 1) ^
            m.gradient_exponent)) := by
  refine ⟨?_, ?_, ?_, ?_, ?_⟩
  · intro x y z m h
    unfold compute_multiplier_for_modifier
    rw [if_pos h]
  · intro x y z m p cx cy hk hcont
    unfold compute_multiplier_for_modifier
    by_cases hz : z < m.min_layer
    · rw [if_pos hz]
    · rw [if_neg hz]
      simp [hk, hcont]
  · intro x y z m cx cy cz hk hgt
    unfold compute_multiplier_for_modifier
    by_cases hz : z < m.min_layer
    · rw [if_pos hz]
    · rw [if_neg hz]
      simp [hk, hgt]
  · intro x y z m p cx cy hk hz hcont hr
    unfold compute_multiplier_for_modifier
    rw [if_neg hz]
    simp only [hk]
    simp [hcont, gradientValue, hr]
  · intro x y z m cx cy cz hk hz hgt hr
    unfold compute_multiplier_for_modifier
    rw [if_neg hz]
    simp only [hk]
    simp [hgt, gradientValue, hr]

/-- C3 witness: below `min_layer` the concrete modifier is inactive and
evaluates to 1. -/
theorem C3_single_modifier_eval_witness :
    compute_multiplier_for_modifier 0 0 (-1) mod15 = some 1 :=
  C3_single_modifier_eval.1 0 0 (-1) mod15 (by norm_num [mod15])

/-- C5: a degenerate single-vertex volumetric modifier with
`max_radius = 0` makes the point evaluation at its centroid raise Python's
`ZeroDivisionError` (modelled as `none`): the division `r / max_radius` at
source line 125 is NOT guarded, contradicting the claimed guard. -/
theorem C5_degenerate_division_error :
    compute_multiplier_for_modifier 0 0 0 degMod = none := by
  have h0 : Real.sqrt (((0 : ℝ) - 0) ^ 2 + ((0 : ℝ) - 0) ^ 2 + ((0 : ℝ) - 0) ^ 2) = 0 := by
    rw [show ((0 : ℝ) - 0) ^ 2 + ((0 : ℝ) - 0) ^ 2 + ((0 : ℝ) - 0) ^ 2 = 0 by ring,
      Real.sqrt_zero]
  unfold compute_multiplier_for_modifier degMod
  simp [h0, gradientValue]

/-- C6: when both endpoints are classified alike (or no planar modifier is
active), the segment multiplier is the arithmetic mean of the point
multiplier at the interior points `(i + 0.5) / samples` of the segment,
for any positive sample count. -/
theorem C6_average_path (U : List Polygon2 → ℝ → ℝ → Bool) (mods : List Modifier)
    (s e : ℝ × ℝ) (z : ℝ) (n : ℕ) (f : ℕ → ℝ) (hn : n ≠ 0)
    (hsame : (activePolys mods z).isEmpty = true ∨
      U (activePolys mods z) s.1 s.2 = U (activePolys mods z) e.1 e.2)
    (h : ∀ i ∈ List.range n, compute_multiplier_multiple mods
      (interpPoint s e (((i : ℝ) + 1 / 2) / (n : ℝ))).1
      (interpPoint s e (((i : ℝ) + 1 / 2) / (n : ℝ))).2 z = some (f i)) :
    compute_effective_multiplier U mods s e z n =
      some ((((List.range n).map f).sum) / (n : ℝ)) := by
  rw [compute_effective_same U mods s e z n hsame]
  exact compute_average_eq_mean mods s e z n f hn h

/-- C6 witness: the empty modifier set averages five interior samples of
the constant 1 multiplier. -/
theorem C6_average_path_witness :
    compute_effective_multiplier trivialU [] ((0 : ℝ), 0) ((1 : ℝ), 1) 0 5 =
      some ((((List.range 5).map (fun _ => (1 : ℝ))).sum) / (5 : ℝ)) :=
  C6_average_path trivialU [] ((0 : ℝ), 0) ((1 : ℝ), 1) 0 5 (fun _ => 1) (by norm_num)
    (Or.inl rfl) (fun i _ => compute_multiplier_multiple_nil _ _ _)

/-- C7: the set-level point multiplier is the product of the individual
evaluations; the empty set yields exactly 1.0 for every point and segment;
and with all other modifiers contributing exactly 1.0 the set evaluation
equals the single remaining modifier's own evaluation. -/
theorem C7_product_composition :
    (∀ (mods : List Modifier) (x y z : ℝ) (f : Modifier → ℝ),
      (∀ m ∈ mods, compute_multiplier_for_modifier x y z m = some (f m)) →
      compute_multiplier_multiple mods x y z = some ((mods.map f).prod)) ∧
    (∀ x y z : ℝ, compute_multiplier_multiple [] x y z = some 1) ∧
    (∀ (U : List Polygon2 → ℝ → ℝ → Bool) (s e : ℝ × ℝ) (z : ℝ) (n : ℕ), n ≠ 0 →
      compute_effective_multiplier U [] s e z n = some 1) ∧
    (∀ (pre post : List Modifier) (m₀ : Modifier) (x y z : ℝ),
      (∀ m ∈ pre, compute_multiplier_for_modifier x y z m = some 1) →
      (∀ m ∈ post, compute_multiplier_for_modifier x y z m = some 1) →
      compute_multiplier_multiple (pre ++ m₀ :: post) x y z =
        compute_multiplier_for_modifier x y z m₀) := by
  refine ⟨?_, ?_, ?_, ?_⟩
  · intro mods x y z f h
    unfold compute_multiplier_multiple
    rw [foldlM_mul_some _ f mods h 1]
    simp
  · intro x y z
    exact compute_multiplier_multiple_nil x y z
  · intro U s e z n hn
    exact compute_effective_nil U s e z n hn
  · intro pre post m₀ x y z hpre hpost
    unfold compute_multiplier_multiple
    rw [foldlM_skip_ones _ pre hpre (m₀ :: post) 1]
    simp only [List.foldlM_cons]
    cases h0 : compute_multiplier_for_modifier x y z m₀ with
    | none => simp [h0]
    | some v =>
      simp only [h0, Option.map_some', one_mul]
      rw [bind_some_eq, foldlM_ones _ post hpost v]

/-- C7 witness: with one never-containing modifier contributing 1.0, the
set evaluation equals the remaining modifier's own evaluation. -/
theorem C7_product_composition_witness :
    compute_multiplier_multiple [modOut, mod15] 0 0 0 =
      compute_multiplier_for_modifier 0 0 0 mod15 :=
  C7_product_composition.2.2.2 [modOut] [] mod15 0 0 0
    (fun _ hm => (List.mem_singleton.1 hm) ▸ modOut_eval 0 0 0)
    (fun m hm => absurd hm (List.not_mem_nil m))

/-- C4 counterexample: on the qualifying line
`G1 X1 Y0 E2.0 ; E9.9` (zero modifiers) the rewrite also replaces the
`E9.9` token inside the trailing comment, so the output differs from the
input in text other than the extrusion field: the actual output is
`G1 X1 Y0 E2.00000 ; E2.00000`, not the claimed
`G1 X1 Y0 E2.00000 ; E9.9`. -/
theorem C4_counterexample :
    (processLines trivialU [] initState [lineB]).map Prod.fst = some [lineBOut] ∧
    lineBOut ≠ lineBClaim ∧ lineBOut ≠ lineB :=
  ⟨processLines_single_fst trivialU [] initState lineB lineBOut (stepB trivialU),
   by decide, by decide⟩

/-- C4 (amended): the output has exactly one line per input line, in
order, and each output line is byte-identical to its input except that on
qualifying motion lines EVERY E-number token on the line (not only the
extrusion field) is replaced by the accumulated value formatted with five
decimal digits. -/
theorem C4_line_mapping (U : List Polygon2 → ℝ → ℝ → Bool) (mods : List Modifier)
    (st : SState) (lines outs : List (List Char)) (stF : SState)
    (h : processLines U mods st lines = some (outs, stF)) :
    outs.length = lines.length ∧
      List.Forall₂ (fun lin lout => lout = lin ∨ ∃ v : ℝ, lout = subE ('E' :: format5 v) lin)
        lines outs :=
  ⟨(List.Forall₂.length_eq (processLines_shape U mods lines st outs stF h)).symm,
   processLines_shape U mods lines st outs stF h⟩

/-- C4 witness: the line mapping applied to a concrete one-line run. -/
theorem C4_line_mapping_witness :
    [lineBOut].length = [lineB].length ∧
      List.Forall₂ (fun lin lout => lout = lin ∨ ∃ v : ℝ, lout = subE ('E' :: format5 v) lin)
        [lineB] [lineBOut] := by
  obtain ⟨st', h⟩ := stepB trivialU
  exact C4_line_mapping trivialU [] initState [lineB] [lineBOut] st'
    (by simp [processLines, h])

/-- C8 counterexample: on the line `G1 X5 E2`, which carries an explicit X
field but no Y field, with last-known position `(1, 1)`, the explicit X is
ignored: the move's end point is `(1, 1)` (not `(5, 1)` as the claim
requires) and `last_x` remains `1` instead of being updated to `5`. -/
theorem C8_counterexample :
    (processLine trivialU [] st0F lineF).map (fun p => p.2.last_x) = some (some (1 : ℝ)) ∧
    (moveGeoOf st0F lineF ['2']).2.1 = ((1 : ℝ), (1 : ℝ)) ∧
    (1 : ℝ) ≠ (5 : ℝ) :=
  ⟨(stepF trivialU).1, (stepF trivialU).2, by norm_num⟩

/-- C8 (amended): explicit coordinates are used, and `last_x`, `last_y`
updated, only when the line carries BOTH X and Y fields; a line carrying
only one of them is treated exactly like a line carrying neither (the
explicit coordinate is ignored and the position is held), and the
cold-start default is the origin. -/
theorem C8_xy_resolution :
    (∀ (st : SState) (xq yq : ℚ) (lx ly : ℝ), st.last_x = some lx → st.last_y = some ly →
      moveGeometry st (some xq) (some yq) =
        ((lx, ly), ((xq : ℝ), (yq : ℝ)),
          { st with
              last_x := some ((xq : ℚ) : ℝ)
              last_y := some ((yq : ℚ) : ℝ) })) ∧
    (∀ (st : SState) (xq yq : ℚ), st.last_x = none ∨ st.last_y = none →
      moveGeometry st (some xq) (some yq) =
        ((((xq : ℚ) : ℝ), ((yq : ℚ) : ℝ)), (((xq : ℚ) : ℝ), ((yq : ℚ) : ℝ)),
          { st with
              last_x := some ((xq : ℚ) : ℝ)
              last_y := some ((yq : ℚ) : ℝ) })) ∧
    (∀ (st : SState) (xv yv : Option ℚ), xv = none ∨ yv = none →
      ∀ lx ly : ℝ, st.last_x = some lx → st.last_y = some ly →
        moveGeometry st xv yv = ((lx, ly), (lx, ly), st)) ∧
    (∀ (st : SState) (xv yv : Option ℚ), (xv = none ∨ yv = none) →
      (st.last_x = none ∨ st.last_y = none) →
      moveGeometry st xv yv = (((0 : ℝ), (0 : ℝ)), ((0 : ℝ), (0 : ℝ)), st)) := by
  refine ⟨?_, ?_, ?_, ?_⟩
  · intro st xq yq lx ly hx hy
    simp [moveGeometry, hx, hy]
  · intro st xq yq h
    rcases h with h | h
    · cases hy : st.last_y <;> simp [moveGeometry, h, hy]
    · cases hx : st.last_x <;> simp [moveGeometry, h, hx]
  · intro st xv yv h lx ly hx hy
    rcases h with h | h
    · subst h
      cases yv <;> simp [moveGeometry, hx, hy]
    · subst h
      cases xv <;> simp [moveGeometry, hx, hy]
  · intro st xv yv h hlast
    have hgeo : ∀ a b, moveGeometry st none b = (((0 : ℝ), (0 : ℝ)), ((0 : ℝ), (0 : ℝ)), st) ∧
        moveGeometry st a none = (((0 : ℝ), (0 : ℝ)), ((0 : ℝ), (0 : ℝ)), st) := by
      intro a b
      rcases hlast with hl | hl
      · constructor
        · cases b <;> cases hy : st.last_y <;> simp [moveGeometry, hl, hy]
        · cases a <;> cases hy : st.last_y <;> simp [moveGeometry, hl, hy]
      · constructor
        · cases b <;> cases hx : st.last_x <;> simp [moveGeometry, hl, hx]
        · cases a <;> cases hx : st.last_x <;> simp [moveGeometry, hl, hx]
    rcases h with h | h
    · subst h
      exact (hgeo none yv).1
    · subst h
      exact (hgeo xv none).2

/-- C8 witness: the partial-coordinates conjunct applied at the concrete
state with last-known position `(1, 1)` and a lone X field. -/
theorem C8_xy_resolution_witness :
    moveGeometry st0F (some 5) none = (((1 : ℝ), (1 : ℝ)), ((1 : ℝ), (1 : ℝ)), st0F) :=
  C8_xy_resolution.2.2.1 st0F (some 5) none (Or.inr rfl) 1 1 rfl rfl

/-- C9 counterexample: with zero modifiers the input line `G1 X1 Y1 E2.5`
is rewritten to `G1 X1 Y1 E2.50000` — the E field is reformatted to five
decimal digits even though its value is unchanged — so the output stream
is not byte-identical to the input stream. -/
theorem C9_counterexample :
    (processLines trivialU [] initState [lineC]).map Prod.fst = some [lineCOut] ∧
    lineCOut ≠ lineC :=
  ⟨processLines_single_fst trivialU [] initState lineC lineCOut (stepC trivialU),
   by decide⟩

/-- C9 (amended): with zero modifiers every run succeeds and each output
line equals its input line except that on qualifying motion lines the
E-number tokens are replaced by the line's own raw E value (the accumulator
tracks the raw stream exactly) formatted with five decimal digits; the
output is byte-identical exactly when every such token already has that
form. -/
theorem C9_no_modifiers (U : List Polygon2 → ℝ → ℝ → Bool) (lines : List (List Char)) :
    ∃ outs stF, processLines U [] initState lines = some (outs, stF) ∧
      List.Forall₂ (fun lin lout => lout = lin ∨ ∃ g, searchTok 'E' lin = some g ∧
        lout = subE ('E' :: format5 ((parseDec g : ℚ) : ℝ)) lin) lines outs :=
  processLines_nil_inv U lines initState rfl

/-- C10: a line is treated as an extrusion move exactly when it starts
with the two characters `G1` and contains `E` anywhere (so `G10`/`G17`
lines with an E qualify), the raw E value being the first E-number token
anywhere on the line, including inside a trailing comment; all other
non-reset lines pass through unchanged (with only the Z tracking state
update). -/
theorem C10_classification :
    (∀ (U : List Polygon2 → ℝ → ℝ → Bool) (mods : List Modifier) (st : SState) (l : List Char),
      (g92Tag.isPrefixOf l && l.contains 'E') = false →
      (g1Tag.isPrefixOf l && l.contains 'E') = false →
      processLine U mods st l = some (l, zUpdate st l)) ∧
    (∀ (U : List Polygon2 → ℝ → ℝ → Bool) (mods : List Modifier) (st : SState)
        (l ge : List Char),
      (g92Tag.isPrefixOf l && l.contains 'E') = false →
      (g1Tag.isPrefixOf l && l.contains 'E') = true → searchTok 'E' l = some ge →
      processLine U mods st l = doMove U mods (zUpdate st l) l ge) ∧
    (∀ U : List Polygon2 → ℝ → ℝ → Bool,
      (processLines U [] initState [lineD]).map Prod.fst = some [lineDOut]) ∧
    (∀ U : List Polygon2 → ℝ → ℝ → Bool,
      (processLines U [] initState [lineE]).map Prod.fst = some [lineEOut]) :=
  ⟨fun U mods st l h92 h1 => processLine_other U mods st l h92 h1,
   fun U mods st l ge h92 h1 hE => processLine_move U mods st l ge h92 h1 hE,
   fun U => processLines_single_fst U [] initState lineD lineDOut (stepD U),
   fun U => processLines_single_fst U [] initState lineE lineEOut (stepE U)⟩

/-- C10 witness: a non-qualifying line passes through unchanged. -/
theorem C10_classification_witness :
    processLine trivialU [] initState lineM = some (lineM, zUpdate initState lineM) :=
  C10_classification.1 trivialU [] initState lineM (by decide) (by decide)
